import Mathlib

/-!
# Environment-variable accessor (`config/env.go`)

Shallow embedding of `EnvVar`, `GetString`, `GetInt` and the three error
constructors of `config/env.go`, together with the part of Go's `strconv`
package that `GetInt` calls (`ParseInt`, `ParseUint`, `NumError`).

Modelling conventions

* A Go `string` is a Lean `String`. The program inspects strings only through
  `len(s) == 0`, concatenation and the byte loop of `strconv.ParseUint`. Every
  byte of a multi-byte UTF-8 sequence is `>= 0x80`, so that loop rejects a
  non-ASCII character exactly as the character-wise loop below does.
* The process environment is a lookup function, `os.LookupEnv` applied to it
  yields `some v` (present, possibly empty) or `none` (absent).
* `panic(err)` is the `Except.error` result; the panic value built by
  `fmt.Errorf` is its message text.
* `uint64` / `int64` / `int` arithmetic is arithmetic on `Nat` / `Int` with the
  wrap-around written out.
* `strconv.Quote` and the width of the native `int` belong to the Go
  toolchain, not to this package; they are parameters (`Target`).
-/

namespace Config

/-! ## Data model -/

/-- Process environment: the result of `os.LookupEnv` for every name. -/
abbrev Env := String → Option String

/-- Go `EnvVar`: describes the environment variable to retrieve. -/
structure EnvVar where
  Key : String
  Required : Bool
  NotEmpty : Bool
  DefaultValue : String
  deriving DecidableEq, Repr

/-- Toolchain parameters: `strconv.Quote` and the bit width of the native `int`. -/
structure Target where
  quote : String → String
  intSize : Nat

/-- Go `len(s)` for a string: its length in bytes. -/
def len (s : String) : Nat := s.utf8ByteSize

/-! ## Error constructors -/

/-- Go `errNotFound`: `fmt.Errorf("environment variable is required: %s", ev.Key)`. -/
def errNotFound (ev : EnvVar) : String :=
  "environment variable is required: " ++ ev.Key

/-- Go `errEmpty`: `fmt.Errorf("environment variable '%s' must not be empty", ev.Key)`. -/
def errEmpty (ev : EnvVar) : String :=
  "environment variable '" ++ ev.Key ++ "' must not be empty"

/-- Go `errInvalidValue`:
`fmt.Errorf("Invalid value of environment variable '%s': %v", ev.Key, err)`. -/
def errInvalidValue (ev : EnvVar) (err : String) : String :=
  "Invalid value of environment variable '" ++ ev.Key ++ "': " ++ err

/-! ## `GetString` -/

/-- Go `EnvVar.GetString`. -/
def GetString (env : Env) (ev : EnvVar) : Except String String :=
  (match env ev.Key with
    | some val => Except.ok val
    | none =>
      if ev.Required then Except.error (errNotFound ev)
      else Except.ok ev.DefaultValue) >>= fun val =>
  if ev.NotEmpty && len val == 0 then Except.error (errEmpty ev)
  else Except.ok val

/-! ## `strconv` -/

/-- The sentinel errors `strconv.ErrSyntax` and `strconv.ErrRange`. -/
inductive ParseErr where
  | ErrSyntax
  | ErrRange
  deriving DecidableEq, Repr

/-- Text of the sentinel errors. -/
def ParseErr.Error : ParseErr → String
  | ParseErr.ErrSyntax => "invalid syntax"
  | ParseErr.ErrRange => "value out of range"

/-- Go `strconv.NumError`. -/
structure NumError where
  Func : String
  Num : String
  Err : ParseErr
  deriving DecidableEq, Repr

/-- Go `(*NumError).Error`:
`"strconv." + e.Func + ": " + "parsing " + Quote(e.Num) + ": " + e.Err.Error()`. -/
def NumError.Error (quote : String → String) (e : NumError) : String :=
  "strconv." ++ e.Func ++ ": " ++ "parsing " ++ quote e.Num ++ ": " ++ e.Err.Error

/-- Go `strconv.syntaxError`. -/
def syntaxError (fn str : String) : NumError := ⟨fn, str, ParseErr.ErrSyntax⟩

/-- Go `strconv.rangeError`. -/
def rangeError (fn str : String) : NumError := ⟨fn, str, ParseErr.ErrRange⟩

/-- Largest `uint64`. -/
def maxUint64 : Nat := 2 ^ 64 - 1

/-- Go `strconv.lower` on a byte: `c | ('x' - 'X')`. -/
def lower (c : Nat) : Nat := c ||| 0x20

/-- The digit a byte stands for in the `switch` of the `ParseUint` loop with an
explicit base (no `_` separators): `none` is the `default` branch. -/
def digitVal (c : Nat) : Option Nat :=
  if 48 ≤ c ∧ c ≤ 57 then some (c - 48)
  else if 97 ≤ lower c ∧ lower c ≤ 122 then some (lower c - 97 + 10)
  else none

/-- The `for _, c := range []byte(s)` loop of `strconv.ParseUint`, with the
accumulator `n` a `uint64`. Returns the pair `(value, err)` of the function. -/
def parseUintLoop (base cutoff maxVal : Nat) (s0 : String) :
    List Char → Nat → Nat × Option NumError
  | [], n => (n, none)
  | c :: cs, n =>
    match digitVal c.toNat with
    | none => (0, some (syntaxError "ParseUint" s0))
    | some d =>
      if d ≥ base then (0, some (syntaxError "ParseUint" s0))
      else if n ≥ cutoff then (maxVal, some (rangeError "ParseUint" s0))
      else
        let n' := (n * base) % 2 ^ 64
        let n1 := (n' + d) % 2 ^ 64
        if n1 < n' ∨ n1 > maxVal then (maxVal, some (rangeError "ParseUint" s0))
        else parseUintLoop base cutoff maxVal s0 cs n1

/-- Go `strconv.ParseUint(s, base, bitSize)` for an explicit base `2..36` and a
bit size `1..64`, which is how the package calls it (base 10, 32 bits). -/
def ParseUint (s : String) (base bitSize : Nat) : Nat × Option NumError :=
  if s = "" then (0, some (syntaxError "ParseUint" s))
  else
    let cutoff := maxUint64 / base + 1
    let maxVal := 2 ^ bitSize - 1
    parseUintLoop base cutoff maxVal s s.data 0

/-- Conversion of an integer to a signed two's-complement type of `bits` bits. -/
def wrapSigned (bits : Nat) (v : Int) : Int :=
  (v + 2 ^ (bits - 1)) % 2 ^ bits - 2 ^ (bits - 1)

/-- Go `strconv.ParseInt(s, base, bitSize)` for an explicit base `2..36` and a
bit size `1..64`. Returns the pair `(i, err)`. -/
def ParseInt (s : String) (base bitSize : Nat) : Int × Option NumError :=
  if s = "" then (0, some (syntaxError "ParseInt" s))
  else
    let s0 := s
    let signed : Bool × List Char :=
      match s.data with
      | [] => (false, [])
      | c :: cs =>
        if c = '+' then (false, cs)
        else if c = '-' then (true, cs)
        else (false, c :: cs)
    let neg := signed.1
    let r := ParseUint (String.mk signed.2) base bitSize
    let un := r.1
    match r.2 with
    | some ⟨_, _, ParseErr.ErrSyntax⟩ => (0, some ⟨"ParseInt", s0, ParseErr.ErrSyntax⟩)
    | _ =>
      let cutoff := 2 ^ (bitSize - 1)
      if !neg ∧ un ≥ cutoff then
        (((cutoff - 1 : Nat) : Int), some (rangeError "ParseInt" s0))
      else if neg ∧ un > cutoff then
        (-(cutoff : Int), some (rangeError "ParseInt" s0))
      else
        let n := wrapSigned 64 un
        (if neg then wrapSigned 64 (-n) else n, none)

/-! ## Decimal literals

The vocabulary of the claims about `GetInt`: a base-10 integer literal is at
most one leading `+` or `-` followed by one or more ASCII digits. -/

/-- ASCII decimal digit `0`..`9`. -/
def isDecDigit (c : Char) : Bool := decide (48 ≤ c.toNat) && decide (c.toNat ≤ 57)

/-- Value of a run of decimal digits read left to right, starting from `n`. -/
def digitsValue (n : Nat) (ds : List Char) : Nat :=
  ds.foldl (fun a c => a * 10 + (c.toNat - 48)) n

/-- The characters of `s` after at most one leading sign. -/
def unsignedPart (s : String) : List Char :=
  match s.data with
  | [] => []
  | c :: cs => if c = '+' ∨ c = '-' then cs else c :: cs

/-- Whether `s` starts with a minus sign. -/
def hasMinus (s : String) : Bool := decide (s.data.head? = some '-')

/-- Sign-and-digits form: an optional sign, then one or more digits, nothing else. -/
def isIntLiteral (s : String) : Bool :=
  !(unsignedPart s).isEmpty && (unsignedPart s).all isDecDigit

/-- The integer a sign-and-digits string denotes. -/
def literalValue (s : String) : Int :=
  if hasMinus s then -(digitsValue 0 (unsignedPart s) : Int)
  else (digitsValue 0 (unsignedPart s) : Int)

/-- The native `int` is 32 or 64 bits wide. -/
def Target.valid (tg : Target) : Prop := tg.intSize = 32 ∨ tg.intSize = 64

/-- Canonical base-10 rendering of an integer: a `-` for a negative number, then
the decimal digits of its magnitude without leading zeros. -/
def decimalRendering (n : Int) : String := Int.repr n

/-! ## `GetInt` -/

/-- Go `EnvVar.GetInt`. -/
def GetInt (tg : Target) (env : Env) (ev : EnvVar) : Except String Int :=
  GetString env ev >>= fun strval =>
  if len strval == 0 then
    Except.error (errInvalidValue ev "cannot convert empty string into an integer")
  else
    match ParseInt strval 10 32 with
    | (_, some err) => Except.error (errInvalidValue ev (err.Error tg.quote))
    | (val, none) => Except.ok (wrapSigned tg.intSize val)

/-! ## Basic facts about strings and messages -/

theorem utf8ByteSize_go_pos (c : Char) (cs : List Char) :
    0 < String.utf8ByteSize.go (c :: cs) := by
  simp only [String.utf8ByteSize.go]
  have := Char.utf8Size_pos c
  omega

/-- A Go string has length zero exactly when it is the empty string. -/
theorem len_eq_zero_iff (s : String) : len s = 0 ↔ s = "" := by
  obtain ⟨l⟩ := s
  cases l with
  | nil => simp [len, String.utf8ByteSize, String.utf8ByteSize.go]
  | cons c cs =>
    have h := utf8ByteSize_go_pos c cs
    constructor
    · intro h0
      simp only [len, String.utf8ByteSize] at h0
      omega
    · intro h0
      have := congrArg String.data h0
      simp at this

theorem len_pos_iff (s : String) : 0 < len s ↔ s ≠ "" := by
  rw [Nat.pos_iff_ne_zero, Ne, len_eq_zero_iff]

/-- The two messages of `GetString` differ (at their 22nd character). -/
theorem errNotFound_ne_errEmpty (ev : EnvVar) : errNotFound ev ≠ errEmpty ev := by
  intro h
  have h2 := congrArg (fun s => s.data.take 22) h
  simp [errNotFound, errEmpty, String.data_append] at h2

theorem errInvalidValue_ne_errNotFound (ev : EnvVar) (r : String) :
    errInvalidValue ev r ≠ errNotFound ev := by
  intro h
  have h2 := congrArg (fun s => s.data.take 1) h
  simp [errNotFound, errInvalidValue, String.data_append] at h2

theorem errInvalidValue_ne_errEmpty (ev : EnvVar) (r : String) :
    errInvalidValue ev r ≠ errEmpty ev := by
  intro h
  have h2 := congrArg (fun s => s.data.take 1) h
  simp [errEmpty, errInvalidValue, String.data_append] at h2

/-- The reason can be read back from an `InvalidValue` message of a given accessor. -/
theorem errInvalidValue_inj (ev : EnvVar) (r r' : String)
    (h : errInvalidValue ev r = errInvalidValue ev r') : r = r' := by
  have h2 := congrArg String.data h
  simp only [errInvalidValue, String.data_append, List.append_assoc] at h2
  exact String.ext
    (List.append_cancel_left (List.append_cancel_left (List.append_cancel_left h2)))

/-! ## `GetString` by cases -/

theorem GetString_present (env : Env) (ev : EnvVar) (V : String)
    (hp : env ev.Key = some V) :
    GetString env ev =
      if ev.NotEmpty = true ∧ V = "" then Except.error (errEmpty ev) else Except.ok V := by
  simp only [GetString, hp]
  simp [bind, Except.bind, len_eq_zero_iff]

theorem GetString_absent_required (env : Env) (ev : EnvVar)
    (ha : env ev.Key = none) (hr : ev.Required = true) :
    GetString env ev = Except.error (errNotFound ev) := by
  simp only [GetString, ha, hr]
  simp [bind, Except.bind]

theorem GetString_absent_optional (env : Env) (ev : EnvVar)
    (ha : env ev.Key = none) (hr : ev.Required = false) :
    GetString env ev =
      if ev.NotEmpty = true ∧ ev.DefaultValue = "" then Except.error (errEmpty ev)
      else Except.ok ev.DefaultValue := by
  simp only [GetString, ha, hr]
  simp [bind, Except.bind, len_eq_zero_iff]

/-! ## Claims about `GetString` -/

/-- C1: with `Required = false` and `Key` absent from the environment, `GetString`
returns `DefaultValue`, except that it fails with the `EmptyValue` error when
`NotEmpty = true` and `DefaultValue` is the empty string. -/
theorem GetString_default (env : Env) (ev : EnvVar)
    (hr : ev.Required = false) (ha : env ev.Key = none) :
    GetString env ev =
      if ev.NotEmpty = true ∧ ev.DefaultValue = "" then Except.error (errEmpty ev)
      else Except.ok ev.DefaultValue :=
  GetString_absent_optional env ev ha hr

theorem GetString_default_witness :
    (EnvVar.mk "TIMEOUT" false true "").Required = false ∧
    (fun _ => none : Env) (EnvVar.mk "TIMEOUT" false true "").Key = none ∧
    GetString (fun _ => none) (EnvVar.mk "TIMEOUT" false true "") =
      if (EnvVar.mk "TIMEOUT" false true "").NotEmpty = true ∧
          (EnvVar.mk "TIMEOUT" false true "").DefaultValue = "" then
        Except.error (errEmpty (EnvVar.mk "TIMEOUT" false true ""))
      else Except.ok (EnvVar.mk "TIMEOUT" false true "").DefaultValue :=
  ⟨rfl, rfl, GetString_default (fun _ => none) (EnvVar.mk "TIMEOUT" false true "") rfl rfl⟩

/-- C2: with `Required = true` and `Key` absent from the environment, `GetString`
fails with the `NotFound` error whatever `DefaultValue` and `NotEmpty` are, and
that error is not the `EmptyValue` error. -/
theorem GetString_required_absent (env : Env) (ev : EnvVar)
    (hr : ev.Required = true) (ha : env ev.Key = none) :
    GetString env ev = Except.error (errNotFound ev) ∧
      GetString env ev ≠ Except.error (errEmpty ev) := by
  have h := GetString_absent_required env ev ha hr
  refine ⟨h, ?_⟩
  rw [h]
  intro he
  exact errNotFound_ne_errEmpty ev (Except.error.inj he)

theorem GetString_required_absent_witness :
    (EnvVar.mk "API_KEY" true true "").Required = true ∧
    (fun _ => none : Env) (EnvVar.mk "API_KEY" true true "").Key = none ∧
    GetString (fun _ => none) (EnvVar.mk "API_KEY" true true "") =
      Except.error (errNotFound (EnvVar.mk "API_KEY" true true "")) ∧
    GetString (fun _ => none) (EnvVar.mk "API_KEY" true true "") ≠
      Except.error (errEmpty (EnvVar.mk "API_KEY" true true "")) :=
  ⟨rfl, rfl,
    GetString_required_absent (fun _ => none) (EnvVar.mk "API_KEY" true true "") rfl rfl⟩

/-- C3: with `NotEmpty = true` and `Key` present with value `V`, `GetString` returns
`V` when `len(V) > 0` and fails with the `EmptyValue` error when `V` is empty,
whatever `Required` and `DefaultValue` are. -/
theorem GetString_notEmpty_present (env : Env) (ev : EnvVar) (V : String)
    (hn : ev.NotEmpty = true) (hp : env ev.Key = some V) :
    GetString env ev =
      if len V > 0 then Except.ok V else Except.error (errEmpty ev) := by
  rw [GetString_present env ev V hp]
  by_cases hV : V = ""
  · subst hV
    have h0 : len "" = 0 := (len_eq_zero_iff "").2 rfl
    simp [hn, h0]
  · have h0 : len V > 0 := (len_pos_iff V).2 hV
    simp [hV, h0]

theorem GetString_notEmpty_present_witness :
    (EnvVar.mk "NAME" true true "x").NotEmpty = true ∧
    (fun _ => some "" : Env) (EnvVar.mk "NAME" true true "x").Key = some "" ∧
    GetString (fun _ => some "") (EnvVar.mk "NAME" true true "x") =
      if len "" > 0 then Except.ok ""
      else Except.error (errEmpty (EnvVar.mk "NAME" true true "x")) :=
  ⟨rfl, rfl,
    GetString_notEmpty_present (fun _ => some "") (EnvVar.mk "NAME" true true "x") "" rfl rfl⟩

/-- C10: with `NotEmpty = false` and `Key` present with value `V` (possibly empty),
`GetString` succeeds and returns exactly `V`, whatever `Required` and
`DefaultValue` are: the default is never substituted for a present value. -/
theorem GetString_present_verbatim (env : Env) (ev : EnvVar) (V : String)
    (hn : ev.NotEmpty = false) (hp : env ev.Key = some V) :
    GetString env ev = Except.ok V := by
  rw [GetString_present env ev V hp]
  simp [hn]

theorem GetString_present_verbatim_witness :
    (EnvVar.mk "NAME" true false "fallback").NotEmpty = false ∧
    (fun _ => some "" : Env) (EnvVar.mk "NAME" true false "fallback").Key = some "" ∧
    GetString (fun _ => some "") (EnvVar.mk "NAME" true false "fallback") = Except.ok "" :=
  ⟨rfl, rfl,
    GetString_present_verbatim (fun _ => some "") (EnvVar.mk "NAME" true false "fallback") ""
      rfl rfl⟩

/-! ## The `strconv` parser on decimal input -/

theorem digitVal_of_digit (c : Char) (h : isDecDigit c = true) :
    digitVal c.toNat = some (c.toNat - 48) ∧ c.toNat - 48 < 10 := by
  simp only [isDecDigit, Bool.and_eq_true, decide_eq_true_eq] at h
  refine ⟨by simp [digitVal, h.1, h.2], by omega⟩

theorem le_digitsValue (ds : List Char) (n : Nat) : n ≤ digitsValue n ds := by
  induction ds generalizing n with
  | nil => simp [digitsValue]
  | cons c cs ih =>
    have := ih (n * 10 + (c.toNat - 48))
    simp only [digitsValue, List.foldl_cons] at this ⊢
    omega

theorem parseUintLoop_digits (s0 : String) (ds : List Char) (n : Nat)
    (hd : ∀ c ∈ ds, isDecDigit c = true) (hn : n ≤ 2 ^ 32 - 1) :
    parseUintLoop 10 (maxUint64 / 10 + 1) (2 ^ 32 - 1) s0 ds n =
      if digitsValue n ds ≤ 2 ^ 32 - 1 then (digitsValue n ds, none)
      else (2 ^ 32 - 1, some (rangeError "ParseUint" s0)) := by
  induction ds generalizing n with
  | nil =>
    have : digitsValue n [] = n := rfl
    rw [this, if_pos hn]
    rfl
  | cons c cs ih =>
    obtain ⟨hv, hlt⟩ := digitVal_of_digit c (hd c (List.mem_cons_self _ _))
    have hcs : ∀ c ∈ cs, isDecDigit c = true := fun x hx => hd x (List.mem_cons_of_mem _ hx)
    have hstep : digitsValue n (c :: cs) = digitsValue (n * 10 + (c.toNat - 48)) cs := by
      simp [digitsValue]
    have hmono := le_digitsValue cs (n * 10 + (c.toNat - 48))
    rw [hstep]
    simp only [parseUintLoop, hv]
    norm_num [maxUint64] at hn ⊢
    have h1 : ¬ 10 ≤ c.toNat - 48 := by omega
    have h2 : ¬ 1844674407370955162 ≤ n := by omega
    have h3 : n * 10 % 18446744073709551616 = n * 10 := Nat.mod_eq_of_lt (by omega)
    have h4 : (n * 10 + (c.toNat - 48)) % 18446744073709551616 = n * 10 + (c.toNat - 48) :=
      Nat.mod_eq_of_lt (by omega)
    simp only [h1, h2, h3, h4, if_false]
    by_cases hbig : 4294967295 < n * 10 + (c.toNat - 48)
    · have : ¬ digitsValue (n * 10 + (c.toNat - 48)) cs ≤ 4294967295 := by omega
      simp [hbig, this]
    · have hle : n * 10 + (c.toNat - 48) ≤ 2 ^ 32 - 1 := by norm_num; omega
      have := ih (n * 10 + (c.toNat - 48)) hcs hle
      norm_num [maxUint64] at this
      simp [hbig, this]

theorem isDecDigit_of_digitVal_lt (c : Char) (d : Nat)
    (h : digitVal c.toNat = some d) (hd : d < 10) : isDecDigit c = true := by
  unfold digitVal at h
  split at h
  · rename_i hc
    simp [isDecDigit, hc.1, hc.2]
  · split at h
    · simp only [Option.some.injEq] at h
      omega
    · simp at h

theorem parseUintLoop_nondigit (cutoff maxVal : Nat) (s0 : String) (ds : List Char) (n : Nat)
    (h : ∃ c ∈ ds, isDecDigit c = false) :
    parseUintLoop 10 cutoff maxVal s0 ds n = (0, some (syntaxError "ParseUint" s0)) ∨
    parseUintLoop 10 cutoff maxVal s0 ds n = (maxVal, some (rangeError "ParseUint" s0)) := by
  induction ds generalizing n with
  | nil => simp at h
  | cons c cs ih =>
    unfold parseUintLoop
    cases hv : digitVal c.toNat with
    | none => exact Or.inl rfl
    | some d =>
      simp only
      by_cases h1 : d ≥ 10
      · simp [h1]
      · by_cases h2 : n ≥ cutoff
        · simp [h1, h2]
        · simp only [h1, h2, if_false]
          split
          · exact Or.inr rfl
          · apply ih
            obtain ⟨x, hx, hxd⟩ := h
            rcases List.mem_cons.1 hx with rfl | hx
            · have := isDecDigit_of_digitVal_lt x d hv (by omega)
              simp [this] at hxd
            · exact ⟨x, hx, hxd⟩

theorem signed_split (s : String) :
    (match s.data with
      | [] => ((false, []) : Bool × List Char)
      | c :: cs =>
        if c = '+' then (false, cs)
        else if c = '-' then (true, cs)
        else (false, c :: cs)) = (hasMinus s, unsignedPart s) := by
  unfold hasMinus unsignedPart
  cases s.data with
  | nil => simp
  | cons c cs =>
    by_cases hp : c = '+'
    · subst hp; simp
    · by_cases hm : c = '-'
      · subst hm; simp
      · simp [hp, hm]

theorem mk_ne_empty (l : List Char) (h : l ≠ []) : String.mk l ≠ "" := by
  intro he
  exact h (congrArg String.data he)

theorem ParseUint_digits (body : List Char) (hne : body ≠ [])
    (hd : ∀ c ∈ body, isDecDigit c = true) :
    ParseUint (String.mk body) 10 32 =
      if digitsValue 0 body ≤ 2 ^ 32 - 1 then (digitsValue 0 body, none)
      else (2 ^ 32 - 1, some (rangeError "ParseUint" (String.mk body))) := by
  unfold ParseUint
  rw [if_neg (mk_ne_empty body hne)]
  exact parseUintLoop_digits (String.mk body) body 0 hd (by norm_num)

theorem ParseUint_nondigit (body : List Char) (h : ∃ c ∈ body, isDecDigit c = false) :
    ParseUint (String.mk body) 10 32 = (0, some (syntaxError "ParseUint" (String.mk body))) ∨
    ParseUint (String.mk body) 10 32 =
      (2 ^ 32 - 1, some (rangeError "ParseUint" (String.mk body))) := by
  have hne : body ≠ [] := by
    rintro rfl
    simp at h
  unfold ParseUint
  rw [if_neg (mk_ne_empty body hne)]
  exact parseUintLoop_nondigit _ _ (String.mk body) body 0 h

theorem ParseUint_empty : ParseUint (String.mk []) 10 32 = (0, some (syntaxError "ParseUint" "")) := by
  rfl

theorem ne_empty_of_unsignedPart (s : String) (h : unsignedPart s ≠ []) : s ≠ "" := by
  rintro rfl
  exact h rfl

theorem ParseInt_of_syntax (s : String) (hs : s ≠ "") (v : Nat) (f m : String)
    (h : ParseUint (String.mk (unsignedPart s)) 10 32 = (v, some ⟨f, m, ParseErr.ErrSyntax⟩)) :
    ParseInt s 10 32 = (0, some (syntaxError "ParseInt" s)) := by
  unfold ParseInt
  rw [if_neg hs]
  simp only [signed_split, h]
  rfl

theorem ParseInt_of_range (s : String) (hs : s ≠ "") (f m : String)
    (h : ParseUint (String.mk (unsignedPart s)) 10 32 =
      (2 ^ 32 - 1, some ⟨f, m, ParseErr.ErrRange⟩)) :
    (ParseInt s 10 32).2 = some (rangeError "ParseInt" s) := by
  unfold ParseInt
  rw [if_neg hs]
  simp only [signed_split, h]
  cases hasMinus s <;> norm_num

theorem wrapSigned_32 (v : Int) (h1 : -2 ^ 31 ≤ v) (h2 : v < 2 ^ 31) : wrapSigned 32 v = v := by
  unfold wrapSigned
  norm_num at h1 h2 ⊢
  omega

theorem wrapSigned_64 (v : Int) (h1 : -2 ^ 63 ≤ v) (h2 : v < 2 ^ 63) : wrapSigned 64 v = v := by
  unfold wrapSigned
  norm_num at h1 h2 ⊢
  omega

theorem ParseInt_of_value (s : String) (hs : s ≠ "") (v : Nat)
    (h : ParseUint (String.mk (unsignedPart s)) 10 32 = (v, none)) :
    ParseInt s 10 32 =
      if hasMinus s = false ∧ v ≥ 2 ^ 31 then ((2 ^ 31 - 1 : Int), some (rangeError "ParseInt" s))
      else if hasMinus s = true ∧ v > 2 ^ 31 then (-(2 ^ 31 : Int), some (rangeError "ParseInt" s))
      else (if hasMinus s = true then -(v : Int) else (v : Int), none) := by
  unfold ParseInt
  rw [if_neg hs]
  simp only [signed_split, h]
  cases hm : hasMinus s
  · by_cases hv : v ≥ 2 ^ 31
    · norm_num at hv
      simp [hv]
    · have hw : wrapSigned 64 (v : Int) = v := by
        apply wrapSigned_64 <;> norm_num at hv ⊢ <;> omega
      simp [hv, hw]
  · by_cases hv : v > 2 ^ 31
    · norm_num at hv
      simp [hv]
    · have hw : wrapSigned 64 (v : Int) = v := by
        apply wrapSigned_64 <;> norm_num at hv ⊢ <;> omega
      have hw2 : wrapSigned 64 (-(v : Int)) = -(v : Int) := by
        apply wrapSigned_64 <;> norm_num at hv ⊢ <;> omega
      simp [hv, hw, hw2]

theorem GetInt_of_error (tg : Target) (env : Env) (ev : EnvVar) (e : String)
    (h : GetString env ev = Except.error e) : GetInt tg env ev = Except.error e := by
  simp [GetInt, h, bind, Except.bind]

theorem GetInt_of_empty (tg : Target) (env : Env) (ev : EnvVar)
    (h : GetString env ev = Except.ok "") :
    GetInt tg env ev =
      Except.error (errInvalidValue ev "cannot convert empty string into an integer") := by
  have h0 : len "" = 0 := (len_eq_zero_iff "").2 rfl
  simp [GetInt, h, bind, Except.bind, h0]

theorem GetInt_of_parse_error (tg : Target) (env : Env) (ev : EnvVar) (s : String)
    (e : NumError) (h : GetString env ev = Except.ok s) (hs : s ≠ "")
    (hp : (ParseInt s 10 32).2 = some e) :
    GetInt tg env ev = Except.error (errInvalidValue ev (e.Error tg.quote)) := by
  have h0 : len s ≠ 0 := fun h0 => hs ((len_eq_zero_iff s).1 h0)
  rcases hpr : ParseInt s 10 32 with ⟨v, r⟩
  rw [hpr] at hp
  simp only at hp
  subst hp
  simp [GetInt, h, bind, Except.bind, h0, hpr]

theorem GetInt_of_parse_ok (tg : Target) (env : Env) (ev : EnvVar) (s : String)
    (v : Int) (h : GetString env ev = Except.ok s) (hs : s ≠ "")
    (hp : ParseInt s 10 32 = (v, none)) :
    GetInt tg env ev = Except.ok (wrapSigned tg.intSize v) := by
  have h0 : len s ≠ 0 := fun h0 => hs ((len_eq_zero_iff s).1 h0)
  simp [GetInt, h, bind, Except.bind, h0, hp]

theorem GetString_present_nonempty (env : Env) (ev : EnvVar) (V : String)
    (hp : env ev.Key = some V) (hV : V ≠ "") : GetString env ev = Except.ok V := by
  rw [GetString_present env ev V hp]
  simp [hV]

theorem NumError_Error_ne_empty_reason (q : String → String) (e : NumError) :
    e.Error q ≠ "cannot convert empty string into an integer" := by
  intro h
  have h2 := congrArg (fun s => s.data.take 1) h
  simp [NumError.Error, String.data_append] at h2

/-! ## Claims about `GetInt` -/

/-- C4: when `Key` is present with a valid base-10 integer literal (optional sign,
then digits) whose value lies in `[-2^31, 2^31-1]`, `GetInt` returns that
integer, for every accessor. -/
theorem GetInt_literal (tg : Target) (env : Env) (ev : EnvVar) (V : String)
    (htg : tg.valid) (hp : env ev.Key = some V) (hl : isIntLiteral V = true)
    (hlo : -2 ^ 31 ≤ literalValue V) (hhi : literalValue V ≤ 2 ^ 31 - 1) :
    GetInt tg env ev = Except.ok (literalValue V) := by
  simp only [isIntLiteral, Bool.and_eq_true, Bool.not_eq_true', List.isEmpty_eq_false,
    List.all_eq_true] at hl
  obtain ⟨hne, hd⟩ := hl
  have hV : V ≠ "" := ne_empty_of_unsignedPart V hne
  have hgs := GetString_present_nonempty env ev V hp hV
  have hpu := ParseUint_digits (unsignedPart V) hne hd
  unfold literalValue at hlo hhi ⊢
  have hfit : digitsValue 0 (unsignedPart V) ≤ 2 ^ 32 - 1 := by
    cases hm : hasMinus V <;> simp only [hm, if_true, if_false, Bool.false_eq_true] at hlo hhi <;>
      norm_num at hlo hhi ⊢ <;> omega
  rw [if_pos hfit] at hpu
  have hpi := ParseInt_of_value V hV _ hpu
  cases hm : hasMinus V
  · simp only [hm, if_false, Bool.false_eq_true] at hlo hhi hpi ⊢
    norm_num at hlo hhi hpi
    have hlt : ¬ 2147483648 ≤ digitsValue 0 (unsignedPart V) := by omega
    rw [if_neg hlt] at hpi
    rw [GetInt_of_parse_ok tg env ev V _ hgs hV hpi]
    congr 1
    rcases htg with h32 | h64
    · rw [h32]; apply wrapSigned_32 <;> norm_num <;> omega
    · rw [h64]; apply wrapSigned_64 <;> norm_num <;> omega
  · simp only [hm, if_true] at hlo hhi hpi ⊢
    norm_num at hlo hhi hpi
    have hlt : ¬ 2147483648 < digitsValue 0 (unsignedPart V) := by omega
    rw [if_neg hlt] at hpi
    rw [GetInt_of_parse_ok tg env ev V _ hgs hV hpi]
    congr 1
    rcases htg with h32 | h64
    · rw [h32]; apply wrapSigned_32 <;> norm_num <;> omega
    · rw [h64]; apply wrapSigned_64 <;> norm_num <;> omega

theorem GetInt_literal_witness :
    (Target.mk (fun s => s) 64).valid ∧
    (fun _ => some "8080" : Env) (EnvVar.mk "PORT" true false "").Key = some "8080" ∧
    isIntLiteral "8080" = true ∧
    -2 ^ 31 ≤ literalValue "8080" ∧ literalValue "8080" ≤ 2 ^ 31 - 1 ∧
    literalValue "8080" = 8080 ∧
    GetInt (Target.mk (fun s => s) 64) (fun _ => some "8080") (EnvVar.mk "PORT" true false "") =
      Except.ok (literalValue "8080") :=
  ⟨Or.inr rfl, rfl, rfl, by decide, by decide, by decide,
    GetInt_literal (Target.mk (fun s => s) 64) (fun _ => some "8080")
      (EnvVar.mk "PORT" true false "") "8080" (Or.inr rfl) rfl rfl (by decide) (by decide)⟩

/-- C5, as stated, fails: the value `-5` contains the non-digit character `-`,
and `GetInt` returns the integer `-5` for it. -/
theorem GetInt_nondigit_counterexample :
    (fun _ => some "-5" : Env) (EnvVar.mk "OFFSET" true false "").Key = some "-5" ∧
    (∃ c ∈ "-5".data, isDecDigit c = false) ∧
    GetInt (Target.mk (fun s => s) 64) (fun _ => some "-5") (EnvVar.mk "OFFSET" true false "") =
      Except.ok (-5) :=
  ⟨rfl, ⟨'-', by decide, by decide⟩, rfl⟩

/-- C5 (amended): when `Key` is present with a value that, after at most one
leading `+` or `-`, contains a character other than an ASCII digit (such as
`12a`), `GetInt` fails with the `InvalidValue` error, its reason being the
`strconv.ParseInt` error for that value (invalid syntax, or out of range when
the digits before the offending character already overflow). -/
theorem GetInt_nondigit (tg : Target) (env : Env) (ev : EnvVar) (V : String)
    (hp : env ev.Key = some V) (hc : ∃ c ∈ unsignedPart V, isDecDigit c = false) :
    GetInt tg env ev =
      Except.error (errInvalidValue ev ((syntaxError "ParseInt" V).Error tg.quote)) ∨
    GetInt tg env ev =
      Except.error (errInvalidValue ev ((rangeError "ParseInt" V).Error tg.quote)) := by
  have hne : unsignedPart V ≠ [] := by
    intro h0
    rw [h0] at hc
    simp at hc
  have hV : V ≠ "" := ne_empty_of_unsignedPart V hne
  have hgs := GetString_present_nonempty env ev V hp hV
  rcases ParseUint_nondigit (unsignedPart V) hc with hs | hr
  · left
    have hpi := ParseInt_of_syntax V hV _ _ _ hs
    exact GetInt_of_parse_error tg env ev V _ hgs hV (by rw [hpi])
  · right
    have hpi := ParseInt_of_range V hV _ _ hr
    exact GetInt_of_parse_error tg env ev V _ hgs hV hpi

theorem GetInt_nondigit_witness :
    (fun _ => some "12a" : Env) (EnvVar.mk "RATE" true false "").Key = some "12a" ∧
    (∃ c ∈ unsignedPart "12a", isDecDigit c = false) ∧
    (GetInt (Target.mk (fun s => s) 64) (fun _ => some "12a") (EnvVar.mk "RATE" true false "") =
      Except.error (errInvalidValue (EnvVar.mk "RATE" true false "")
        ((syntaxError "ParseInt" "12a").Error (Target.mk (fun s => s) 64).quote)) ∨
    GetInt (Target.mk (fun s => s) 64) (fun _ => some "12a") (EnvVar.mk "RATE" true false "") =
      Except.error (errInvalidValue (EnvVar.mk "RATE" true false "")
        ((rangeError "ParseInt" "12a").Error (Target.mk (fun s => s) 64).quote))) :=
  ⟨rfl, ⟨'a', by decide, by decide⟩,
    GetInt_nondigit (Target.mk (fun s => s) 64) (fun _ => some "12a")
      (EnvVar.mk "RATE" true false "") "12a" rfl ⟨'a', by decide, by decide⟩⟩

/-- C6: when `Key` is present with a sign-and-digits value whose magnitude exceeds
the 32-bit signed range (above 2147483647 or below -2147483648), `GetInt` fails
with the `InvalidValue` error carrying the out-of-range `strconv.ParseInt`
error; no truncated or wrapped integer is returned. -/
theorem GetInt_out_of_range (tg : Target) (env : Env) (ev : EnvVar) (V : String)
    (hp : env ev.Key = some V) (hl : isIntLiteral V = true)
    (hr : literalValue V > 2147483647 ∨ literalValue V < -2147483648) :
    GetInt tg env ev =
      Except.error (errInvalidValue ev ((rangeError "ParseInt" V).Error tg.quote)) := by
  simp only [isIntLiteral, Bool.and_eq_true, Bool.not_eq_true', List.isEmpty_eq_false,
    List.all_eq_true] at hl
  obtain ⟨hne, hd⟩ := hl
  have hV : V ≠ "" := ne_empty_of_unsignedPart V hne
  have hgs := GetString_present_nonempty env ev V hp hV
  have hpu := ParseUint_digits (unsignedPart V) hne hd
  apply GetInt_of_parse_error tg env ev V _ hgs hV
  by_cases hfit : digitsValue 0 (unsignedPart V) ≤ 2 ^ 32 - 1
  · rw [if_pos hfit] at hpu
    rw [ParseInt_of_value V hV _ hpu]
    unfold literalValue at hr
    cases hm : hasMinus V
    · simp only [hm, if_false, Bool.false_eq_true] at hr
      have hge : 2147483648 ≤ digitsValue 0 (unsignedPart V) := by omega
      simp [hge]
    · simp only [hm, if_true] at hr
      have hgt : 2147483648 < digitsValue 0 (unsignedPart V) := by omega
      simp [hgt]
  · rw [if_neg hfit] at hpu
    exact ParseInt_of_range V hV _ _ hpu

theorem GetInt_out_of_range_witness :
    (fun _ => some "-2147483649" : Env) (EnvVar.mk "N" false false "0").Key =
      some "-2147483649" ∧
    isIntLiteral "-2147483649" = true ∧
    (literalValue "-2147483649" > 2147483647 ∨ literalValue "-2147483649" < -2147483648) ∧
    GetInt (Target.mk (fun s => s) 64) (fun _ => some "-2147483649")
        (EnvVar.mk "N" false false "0") =
      Except.error (errInvalidValue (EnvVar.mk "N" false false "0")
        ((rangeError "ParseInt" "-2147483649").Error (Target.mk (fun s => s) 64).quote)) :=
  ⟨rfl, rfl, Or.inr (by decide),
    GetInt_out_of_range (Target.mk (fun s => s) 64) (fun _ => some "-2147483649")
      (EnvVar.mk "N" false false "0") "-2147483649" rfl rfl (Or.inr (by decide))⟩

theorem GetString_error_cases (env : Env) (ev : EnvVar) (e : String)
    (h : GetString env ev = Except.error e) : e = errNotFound ev ∨ e = errEmpty ev := by
  cases hk : env ev.Key with
  | some V =>
    rw [GetString_present env ev V hk] at h
    split at h
    · exact Or.inr (Except.error.inj h).symm
    · cases h
  | none =>
    cases hr : ev.Required
    · rw [GetString_absent_optional env ev hk hr] at h
      split at h
      · exact Or.inr (Except.error.inj h).symm
      · cases h
    · rw [GetString_absent_required env ev hk hr] at h
      exact Or.inl (Except.error.inj h).symm

theorem GetInt_of_nonempty (tg : Target) (env : Env) (ev : EnvVar) (s : String)
    (h : GetString env ev = Except.ok s) (hs : s ≠ "") :
    (∃ n, GetInt tg env ev = Except.ok n) ∨
    ∃ e : NumError, GetInt tg env ev = Except.error (errInvalidValue ev (e.Error tg.quote)) := by
  rcases hpr : ParseInt s 10 32 with ⟨v, _ | e⟩
  · exact Or.inl ⟨_, GetInt_of_parse_ok tg env ev s v h hs hpr⟩
  · exact Or.inr ⟨e, GetInt_of_parse_error tg env ev s e h hs (by rw [hpr])⟩

theorem GetInt_of_ok_cases (tg : Target) (env : Env) (ev : EnvVar) (s : String)
    (h : GetString env ev = Except.ok s) :
    (∃ n, GetInt tg env ev = Except.ok n) ∨
    ∃ r, GetInt tg env ev = Except.error (errInvalidValue ev r) := by
  by_cases hs : s = ""
  · subst hs
    exact Or.inr ⟨_, GetInt_of_empty tg env ev h⟩
  · rcases GetInt_of_nonempty tg env ev s h hs with hn | ⟨e, he⟩
    · exact Or.inl hn
    · exact Or.inr ⟨_, he⟩

theorem GetString_ok_empty_iff (env : Env) (ev : EnvVar) :
    GetString env ev = Except.ok "" ↔
      ev.NotEmpty = false ∧
        (env ev.Key = some "" ∨
          (env ev.Key = none ∧ ev.Required = false ∧ ev.DefaultValue = "")) := by
  cases hk : env ev.Key with
  | some V =>
    rw [GetString_present env ev V hk]
    cases hn : ev.NotEmpty <;> by_cases hV : V = "" <;> simp [hV]
  | none =>
    cases hr : ev.Required
    · rw [GetString_absent_optional env ev hk hr]
      cases hn : ev.NotEmpty <;> by_cases hD : ev.DefaultValue = "" <;> simp [hD]
    · rw [GetString_absent_required env ev hk hr]
      simp

/-- The empty-string failure of `GetInt` happens exactly when `GetString` returns
the empty string. -/
theorem GetInt_empty_reason_iff_GetString (tg : Target) (env : Env) (ev : EnvVar) :
    GetInt tg env ev =
        Except.error (errInvalidValue ev "cannot convert empty string into an integer") ↔
      GetString env ev = Except.ok "" := by
  constructor
  · intro h
    cases hgs : GetString env ev with
    | error e =>
      rw [GetInt_of_error tg env ev e hgs] at h
      have he := Except.error.inj h
      rcases GetString_error_cases env ev e hgs with h1 | h1
      · exact absurd (he ▸ h1) (errInvalidValue_ne_errNotFound ev _)
      · exact absurd (he ▸ h1) (errInvalidValue_ne_errEmpty ev _)
    | ok s =>
      by_cases hs : s = ""
      · rw [hs]
      · rcases GetInt_of_nonempty tg env ev s hgs hs with ⟨n, hn⟩ | ⟨e, he⟩
        · rw [hn] at h
          cases h
        · rw [he] at h
          exact absurd (errInvalidValue_inj ev _ _ (Except.error.inj h))
            (NumError_Error_ne_empty_reason tg.quote e)
  · exact GetInt_of_empty tg env ev

/-- C7: if `GetString` fails, `GetInt` fails with exactly the same error (the
`NotFound` or `EmptyValue` message of `GetString`, unchanged), and when
`GetString` succeeds `GetInt` never fails with `NotFound` or `EmptyValue`. -/
theorem GetInt_propagates_GetString_error (tg : Target) (env : Env) (ev : EnvVar) :
    (∀ e, GetString env ev = Except.error e →
      (e = errNotFound ev ∨ e = errEmpty ev) ∧ GetInt tg env ev = Except.error e) ∧
    (∀ s, GetString env ev = Except.ok s →
      GetInt tg env ev ≠ Except.error (errNotFound ev) ∧
      GetInt tg env ev ≠ Except.error (errEmpty ev)) := by
  constructor
  · intro e he
    exact ⟨GetString_error_cases env ev e he, GetInt_of_error tg env ev e he⟩
  · intro s hs
    rcases GetInt_of_ok_cases tg env ev s hs with ⟨n, hn⟩ | ⟨r, hr⟩
    · rw [hn]
      exact ⟨fun h => (by cases h), fun h => (by cases h)⟩
    · rw [hr]
      exact ⟨fun h => errInvalidValue_ne_errNotFound ev r (Except.error.inj h),
        fun h => errInvalidValue_ne_errEmpty ev r (Except.error.inj h)⟩

/-- C8: `GetInt` fails with the `InvalidValue` error whose reason is
"cannot convert empty string into an integer" if and only if `GetString`
succeeds with the empty string, that is, if and only if `NotEmpty = false` and
the variable resolves to an empty value (present and empty, or absent with
`Required = false` and an empty `DefaultValue`). -/
theorem GetInt_empty_string_error_iff (tg : Target) (env : Env) (ev : EnvVar) :
    (GetInt tg env ev =
        Except.error (errInvalidValue ev "cannot convert empty string into an integer") ↔
      GetString env ev = Except.ok "") ∧
    (GetString env ev = Except.ok "" ↔
      ev.NotEmpty = false ∧
        (env ev.Key = some "" ∨
          (env ev.Key = none ∧ ev.Required = false ∧ ev.DefaultValue = ""))) :=
  ⟨GetInt_empty_reason_iff_GetString tg env ev, GetString_ok_empty_iff env ev⟩

/-- C9, as stated, fails: with `Key` present and empty and `NotEmpty = false`,
`GetInt` fails with the empty-string error although `Key` is not absent (and
`DefaultValue` is not empty). -/
theorem GetInt_empty_present_counterexample :
    GetInt (Target.mk (fun s => s) 64) (fun _ => some "") (EnvVar.mk "COUNT" false false "7") =
      Except.error (errInvalidValue (EnvVar.mk "COUNT" false false "7")
        "cannot convert empty string into an integer") ∧
    (fun _ => some "" : Env) (EnvVar.mk "COUNT" false false "7").Key ≠ none ∧
    (EnvVar.mk "COUNT" false false "7").DefaultValue ≠ "" :=
  ⟨rfl, by simp, by decide⟩

/-- C9 (amended): the empty-string check of `GetInt` is unreachable when
`NotEmpty = true`; whenever `GetInt` fails with the
"cannot convert empty string into an integer" error, `NotEmpty = false` and the
empty value is either the value of a present `Key` or an empty `DefaultValue`
on the absence path (`Key` absent, `Required = false`). -/
theorem GetInt_empty_string_error_origin (tg : Target) (env : Env) (ev : EnvVar)
    (h : GetInt tg env ev =
      Except.error (errInvalidValue ev "cannot convert empty string into an integer")) :
    ev.NotEmpty = false ∧
      (env ev.Key = some "" ∨
        (env ev.Key = none ∧ ev.Required = false ∧ ev.DefaultValue = "")) :=
  (GetString_ok_empty_iff env ev).1 ((GetInt_empty_reason_iff_GetString tg env ev).1 h)

theorem GetInt_empty_string_error_origin_witness :
    GetInt (Target.mk (fun s => s) 64) (fun _ => none) (EnvVar.mk "COUNT" false false "") =
      Except.error (errInvalidValue (EnvVar.mk "COUNT" false false "")
        "cannot convert empty string into an integer") ∧
    ((EnvVar.mk "COUNT" false false "").NotEmpty = false ∧
      ((fun _ => none : Env) (EnvVar.mk "COUNT" false false "").Key = some "" ∨
        ((fun _ => none : Env) (EnvVar.mk "COUNT" false false "").Key = none ∧
          (EnvVar.mk "COUNT" false false "").Required = false ∧
          (EnvVar.mk "COUNT" false false "").DefaultValue = ""))) :=
  ⟨rfl, GetInt_empty_string_error_origin (Target.mk (fun s => s) 64) (fun _ => none)
    (EnvVar.mk "COUNT" false false "") rfl⟩

/-! ## Decimal rendering and the acceptance condition of `ParseInt` -/

theorem digitChar_digit (d : Nat) (h : d < 10) :
    isDecDigit (Nat.digitChar d) = true ∧ (Nat.digitChar d).toNat - 48 = d := by
  interval_cases d <;> exact ⟨rfl, rfl⟩

theorem digitsValue_append (a : Nat) (l1 l2 : List Char) :
    digitsValue a (l1 ++ l2) = digitsValue (digitsValue a l1) l2 := by
  simp [digitsValue, List.foldl_append]

theorem toDigitsCore_spec (fuel : Nat) : ∀ (n : Nat) (ds : List Char), n < fuel →
    ∃ l, Nat.toDigitsCore 10 fuel n ds = l ++ ds ∧ l ≠ [] ∧
      (∀ c ∈ l, isDecDigit c = true) ∧ digitsValue 0 l = n := by
  induction fuel with
  | zero => intro n ds h; omega
  | succ fuel ih =>
    intro n ds h
    obtain ⟨hd, hv⟩ := digitChar_digit (n % 10) (Nat.mod_lt _ (by norm_num))
    unfold Nat.toDigitsCore
    by_cases h0 : n / 10 = 0
    · refine ⟨[Nat.digitChar (n % 10)], by simp [h0], by simp, by simpa using hd, ?_⟩
      simp only [digitsValue, List.foldl_cons, List.foldl_nil, hv]
      omega
    · obtain ⟨l, hl, hne, hall, hval⟩ := ih (n / 10) (Nat.digitChar (n % 10) :: ds) (by omega)
      refine ⟨l ++ [Nat.digitChar (n % 10)], by simp [h0, hl], by simp, ?_, ?_⟩
      · intro c hc
        rcases List.mem_append.1 hc with hc | hc
        · exact hall c hc
        · simp only [List.mem_singleton] at hc
          rw [hc]; exact hd
      · rw [digitsValue_append, hval]
        simp only [digitsValue, List.foldl_cons, List.foldl_nil, hv]
        omega

theorem toDigits_spec (n : Nat) :
    Nat.toDigits 10 n ≠ [] ∧ (∀ c ∈ Nat.toDigits 10 n, isDecDigit c = true) ∧
      digitsValue 0 (Nat.toDigits 10 n) = n := by
  obtain ⟨l, hl, hne, hall, hval⟩ := toDigitsCore_spec (n + 1) n [] (by omega)
  have : Nat.toDigits 10 n = l := by simp [Nat.toDigits, hl]
  rw [this]
  exact ⟨hne, hall, hval⟩

theorem unsignedPart_digits (l : List Char) (hne : l ≠ [])
    (hall : ∀ c ∈ l, isDecDigit c = true) :
    unsignedPart (String.mk l) = l ∧ hasMinus (String.mk l) = false := by
  cases l with
  | nil => exact absurd rfl hne
  | cons c cs =>
    have hc := hall c (List.mem_cons_self _ _)
    have hp : c ≠ '+' := by
      rintro rfl
      simp [isDecDigit] at hc
    have hm : c ≠ '-' := by
      rintro rfl
      simp [isDecDigit] at hc
    simp [unsignedPart, hasMinus, hp, hm]

theorem unsignedPart_minus (l : List Char) :
    unsignedPart (String.mk ('-' :: l)) = l ∧ hasMinus (String.mk ('-' :: l)) = true := by
  simp [unsignedPart, hasMinus]

theorem decimalRendering_literal (n : Int) :
    isIntLiteral (decimalRendering n) = true ∧ literalValue (decimalRendering n) = n := by
  cases n with
  | ofNat m =>
    obtain ⟨hne, hall, hval⟩ := toDigits_spec m
    obtain ⟨hu, hm⟩ := unsignedPart_digits (Nat.toDigits 10 m) hne hall
    have hr : decimalRendering (Int.ofNat m) = String.mk (Nat.toDigits 10 m) := rfl
    rw [hr]
    constructor
    · simp only [isIntLiteral, hu, Bool.and_eq_true, Bool.not_eq_true', List.isEmpty_eq_false,
        List.all_eq_true]
      exact ⟨hne, hall⟩
    · simp [literalValue, hu, hm, hval]
  | negSucc m =>
    obtain ⟨hne, hall, hval⟩ := toDigits_spec (m + 1)
    obtain ⟨hu, hm⟩ := unsignedPart_minus (Nat.toDigits 10 (m + 1))
    have hr : decimalRendering (Int.negSucc m) = String.mk ('-' :: Nat.toDigits 10 (m + 1)) := rfl
    rw [hr]
    constructor
    · simp only [isIntLiteral, hu, Bool.and_eq_true, Bool.not_eq_true', List.isEmpty_eq_false,
        List.all_eq_true]
      exact ⟨hne, hall⟩
    · simp only [literalValue, hu, hm, hval, if_true]
      rw [Int.negSucc_eq]
      push_cast
      ring

theorem isIntLiteral_iff (s : String) :
    isIntLiteral s = true ↔
      unsignedPart s ≠ [] ∧ ∀ c ∈ unsignedPart s, isDecDigit c = true := by
  simp only [isIntLiteral, Bool.and_eq_true, Bool.not_eq_true', List.isEmpty_eq_false,
    List.all_eq_true]

theorem ParseInt_literal (s : String) (hl : isIntLiteral s = true)
    (hlo : -2147483648 ≤ literalValue s) (hhi : literalValue s ≤ 2147483647) :
    ParseInt s 10 32 = (literalValue s, none) := by
  obtain ⟨hne, hd⟩ := (isIntLiteral_iff s).1 hl
  have hs : s ≠ "" := ne_empty_of_unsignedPart s hne
  have hpu := ParseUint_digits (unsignedPart s) hne hd
  unfold literalValue at hlo hhi ⊢
  have hfit : digitsValue 0 (unsignedPart s) ≤ 2 ^ 32 - 1 := by
    cases hm : hasMinus s <;> simp only [hm, if_true, if_false, Bool.false_eq_true] at hlo hhi <;>
      norm_num <;> omega
  rw [if_pos hfit] at hpu
  rw [ParseInt_of_value s hs _ hpu]
  cases hm : hasMinus s
  · simp only [hm, if_false, Bool.false_eq_true] at hlo hhi ⊢
    have hlt : ¬ 2147483648 ≤ digitsValue 0 (unsignedPart s) := by omega
    simp [hlt]
  · simp only [hm, if_true] at hlo hhi ⊢
    have hlt : ¬ 2147483648 < digitsValue 0 (unsignedPart s) := by omega
    simp [hlt]

theorem ParseInt_literal_out_of_range (s : String) (hl : isIntLiteral s = true)
    (hr : ¬ (-2147483648 ≤ literalValue s ∧ literalValue s ≤ 2147483647)) :
    (ParseInt s 10 32).2 = some (rangeError "ParseInt" s) := by
  obtain ⟨hne, hd⟩ := (isIntLiteral_iff s).1 hl
  have hs : s ≠ "" := ne_empty_of_unsignedPart s hne
  have hpu := ParseUint_digits (unsignedPart s) hne hd
  by_cases hfit : digitsValue 0 (unsignedPart s) ≤ 2 ^ 32 - 1
  · rw [if_pos hfit] at hpu
    rw [ParseInt_of_value s hs _ hpu]
    unfold literalValue at hr
    cases hm : hasMinus s
    · simp only [hm, if_false, Bool.false_eq_true] at hr
      have hge : 2147483648 ≤ digitsValue 0 (unsignedPart s) := by omega
      simp [hge]
    · simp only [hm, if_true] at hr
      have hgt : 2147483648 < digitsValue 0 (unsignedPart s) := by omega
      simp [hgt]
  · rw [if_neg hfit] at hpu
    exact ParseInt_of_range s hs _ _ hpu

theorem ParseInt_not_literal (s : String) (hl : isIntLiteral s = false) :
    (ParseInt s 10 32).2 = some (syntaxError "ParseInt" s) ∨
    (ParseInt s 10 32).2 = some (rangeError "ParseInt" s) := by
  by_cases hs : s = ""
  · left
    simp [ParseInt, hs]
  · by_cases hne : unsignedPart s = []
    · left
      have hpu : ParseUint (String.mk (unsignedPart s)) 10 32 =
          (0, some ⟨"ParseUint", "", ParseErr.ErrSyntax⟩) := by
        rw [hne]; rfl
      rw [ ParseInt_of_syntax s hs _ _ _ hpu]
    · have hex : ∃ c ∈ unsignedPart s, isDecDigit c = false := by
        by_contra hcon
        have hall : ∀ c ∈ unsignedPart s, isDecDigit c = true := by
          intro c hc
          by_contra hcd
          exact hcon ⟨c, hc, by simpa using hcd⟩
        have := (isIntLiteral_iff s).2 ⟨hne, hall⟩
        rw [hl] at this
        cases this
      rcases ParseUint_nondigit (unsignedPart s) hex with h1 | h2
      · left
        rw [ ParseInt_of_syntax s hs _ _ _ h1]
      · right
        exact ParseInt_of_range s hs _ _ h2

theorem isIntLiteral_ne_empty (s : String) (hl : isIntLiteral s = true) : s ≠ "" :=
  ne_empty_of_unsignedPart s ((isIntLiteral_iff s).1 hl).1

theorem wrapSigned_valid (tg : Target) (htg : tg.valid) (v : Int)
    (hlo : -2147483648 ≤ v) (hhi : v ≤ 2147483647) : wrapSigned tg.intSize v = v := by
  rcases htg with h | h
  · rw [h]; apply wrapSigned_32 <;> norm_num <;> omega
  · rw [h]; apply wrapSigned_64 <;> norm_num <;> omega

/-- `GetInt` on a string that `GetString` returned, in sign-and-digits form and in range. -/
theorem GetInt_of_ok_literal (tg : Target) (env : Env) (ev : EnvVar) (s : String)
    (htg : tg.valid) (h : GetString env ev = Except.ok s) (hl : isIntLiteral s = true)
    (hlo : -2147483648 ≤ literalValue s) (hhi : literalValue s ≤ 2147483647) :
    GetInt tg env ev = Except.ok (literalValue s) := by
  rw [GetInt_of_parse_ok tg env ev s _ h (isIntLiteral_ne_empty s hl)
    (ParseInt_literal s hl hlo hhi), wrapSigned_valid tg htg _ hlo hhi]

/-- `GetInt` on a string that `GetString` returned and that is not an in-range literal. -/
theorem GetInt_of_ok_rejected (tg : Target) (env : Env) (ev : EnvVar) (s : String)
    (h : GetString env ev = Except.ok s)
    (hn : ¬ (isIntLiteral s = true ∧
      -2147483648 ≤ literalValue s ∧ literalValue s ≤ 2147483647)) :
    ∃ r, GetInt tg env ev = Except.error (errInvalidValue ev r) := by
  by_cases hs : s = ""
  · subst hs
    exact ⟨_, GetInt_of_empty tg env ev h⟩
  · cases hl : isIntLiteral s
    · rcases ParseInt_not_literal s hl with h1 | h1
      · exact ⟨_, GetInt_of_parse_error tg env ev s _ h hs h1⟩
      · exact ⟨_, GetInt_of_parse_error tg env ev s _ h hs h1⟩
    · have hr : ¬ (-2147483648 ≤ literalValue s ∧ literalValue s ≤ 2147483647) :=
        fun hr => hn ⟨hl, hr⟩
      exact ⟨_, GetInt_of_parse_error tg env ev s _ h hs
        (ParseInt_literal_out_of_range s hl hr)⟩

/-! ## Determinism, uniformity of `NotEmpty`, error messages -/

theorem GetInt_congr (tg : Target) (env1 env2 : Env) (ev : EnvVar)
    (h : GetString env1 ev = GetString env2 ev) : GetInt tg env1 ev = GetInt tg env2 ev := by
  simp only [GetInt, h]

theorem GetString_congr (env1 env2 : Env) (ev : EnvVar) (h : env1 ev.Key = env2 ev.Key) :
    GetString env1 ev = GetString env2 ev := by
  simp only [GetString, h]

theorem GetInt_error_cases (tg : Target) (env : Env) (ev : EnvVar) (e : String)
    (h : GetInt tg env ev = Except.error e) :
    e = errNotFound ev ∨ e = errEmpty ev ∨ ∃ r, e = errInvalidValue ev r := by
  cases hgs : GetString env ev with
  | error e' =>
    rw [GetInt_of_error tg env ev e' hgs] at h
    have he := Except.error.inj h
    subst he
    rcases GetString_error_cases env ev e' hgs with h1 | h1
    · exact Or.inl h1
    · exact Or.inr (Or.inl h1)
  | ok s =>
    rcases GetInt_of_ok_cases tg env ev s hgs with ⟨n, hn⟩ | ⟨r, hr⟩
    · rw [hn] at h
      cases h
    · rw [hr] at h
      exact Or.inr (Or.inr ⟨r, (Except.error.inj h).symm⟩)

theorem key_infix_errNotFound (ev : EnvVar) : List.IsInfix ev.Key.data (errNotFound ev).data := by
  simp only [errNotFound, String.data_append]
  exact (List.suffix_append _ _).isInfix

theorem key_infix_errEmpty (ev : EnvVar) : List.IsInfix ev.Key.data (errEmpty ev).data := by
  simp only [errEmpty, String.data_append]
  exact List.infix_append _ _ _

theorem key_infix_errInvalidValue (ev : EnvVar) (r : String) :
    List.IsInfix ev.Key.data (errInvalidValue ev r).data := by
  simp only [errInvalidValue, String.data_append]
  exact (List.infix_append _ _ _).trans (List.prefix_append _ _).isInfix

/-- C11: `GetString` and `GetInt` are functions of the accessor and of the lookup
of `Key` alone: two environments that agree on the lookup of `Key` (same
presence, same value) give identical results, value or error; in particular two
calls against the same, unchanged environment give identical results. -/
theorem GetString_GetInt_deterministic (tg : Target) (env1 env2 : Env) (ev : EnvVar)
    (h : env1 ev.Key = env2 ev.Key) :
    GetString env1 ev = GetString env2 ev ∧ GetInt tg env1 ev = GetInt tg env2 ev :=
  ⟨GetString_congr env1 env2 ev h, GetInt_congr tg env1 env2 ev (GetString_congr env1 env2 ev h)⟩

theorem GetString_GetInt_deterministic_witness :
    (fun k => if k = "PORT" then some "8080" else none : Env)
        (EnvVar.mk "PORT" true false "").Key =
      (fun _ => some "8080" : Env) (EnvVar.mk "PORT" true false "").Key ∧
    GetString (fun k => if k = "PORT" then some "8080" else none)
        (EnvVar.mk "PORT" true false "") =
      GetString (fun _ => some "8080") (EnvVar.mk "PORT" true false "") ∧
    GetInt (Target.mk (fun s => s) 64) (fun k => if k = "PORT" then some "8080" else none)
        (EnvVar.mk "PORT" true false "") =
      GetInt (Target.mk (fun s => s) 64) (fun _ => some "8080")
        (EnvVar.mk "PORT" true false "") :=
  ⟨by decide,
    GetString_GetInt_deterministic (Target.mk (fun s => s) 64)
      (fun k => if k = "PORT" then some "8080" else none) (fun _ => some "8080")
      (EnvVar.mk "PORT" true false "") (by decide)⟩

/-- C12: `NotEmpty` applies uniformly to environment and default values: with
`Required = false`, the outcome (value or error) of `GetString`, and of `GetInt`,
when `Key` is absent and the default is `D` equals the outcome of the same
accessor when `Key` is present with value `D`. -/
theorem NotEmpty_uniform (tg : Target) (envAbsent envPresent : Env) (ev : EnvVar)
    (hr : ev.Required = false) (ha : envAbsent ev.Key = none)
    (hp : envPresent ev.Key = some ev.DefaultValue) :
    GetString envAbsent ev = GetString envPresent ev ∧
      GetInt tg envAbsent ev = GetInt tg envPresent ev := by
  have h : GetString envAbsent ev = GetString envPresent ev := by
    rw [GetString_absent_optional envAbsent ev ha hr,
      GetString_present envPresent ev ev.DefaultValue hp]
  exact ⟨h, GetInt_congr tg envAbsent envPresent ev h⟩

theorem NotEmpty_uniform_witness :
    (EnvVar.mk "COUNT" false true "").Required = false ∧
    (fun _ => none : Env) (EnvVar.mk "COUNT" false true "").Key = none ∧
    (fun _ => some "" : Env) (EnvVar.mk "COUNT" false true "").Key =
      some (EnvVar.mk "COUNT" false true "").DefaultValue ∧
    GetString (fun _ => none) (EnvVar.mk "COUNT" false true "") =
      GetString (fun _ => some "") (EnvVar.mk "COUNT" false true "") ∧
    GetInt (Target.mk (fun s => s) 64) (fun _ => none) (EnvVar.mk "COUNT" false true "") =
      GetInt (Target.mk (fun s => s) 64) (fun _ => some "") (EnvVar.mk "COUNT" false true "") :=
  ⟨rfl, rfl, rfl,
    NotEmpty_uniform (Target.mk (fun s => s) 64) (fun _ => none) (fun _ => some "")
      (EnvVar.mk "COUNT" false true "") rfl rfl rfl⟩

/-- C13: every error carries the key name in a fixed format. The `NotFound` message
is "environment variable is required: " followed by `Key`; the `EmptyValue`
message is "environment variable '" + `Key` + "' must not be empty"; the
`InvalidValue` message is "Invalid value of environment variable '" + `Key` +
"': " followed by the reason. Every error of `GetString` or `GetInt` is one of
these, hence `Key` is a substring of every error message they produce. -/
theorem error_messages_carry_key (tg : Target) (env : Env) (ev : EnvVar) :
    errNotFound ev = "environment variable is required: " ++ ev.Key ∧
    errEmpty ev = "environment variable '" ++ ev.Key ++ "' must not be empty" ∧
    (∀ reason, errInvalidValue ev reason =
      "Invalid value of environment variable '" ++ ev.Key ++ "': " ++ reason) ∧
    (∀ e, GetString env ev = Except.error e →
      (e = errNotFound ev ∨ e = errEmpty ev) ∧ List.IsInfix ev.Key.data e.data) ∧
    (∀ e, GetInt tg env ev = Except.error e →
      (e = errNotFound ev ∨ e = errEmpty ev ∨ ∃ r, e = errInvalidValue ev r) ∧
        List.IsInfix ev.Key.data e.data) := by
  refine ⟨rfl, rfl, fun _ => rfl, ?_, ?_⟩
  · intro e he
    have hc := GetString_error_cases env ev e he
    refine ⟨hc, ?_⟩
    rcases hc with h | h
    · rw [h]; exact key_infix_errNotFound ev
    · rw [h]; exact key_infix_errEmpty ev
  · intro e he
    have hc := GetInt_error_cases tg env ev e he
    refine ⟨hc, ?_⟩
    rcases hc with h | h | ⟨r, h⟩
    · rw [h]; exact key_infix_errNotFound ev
    · rw [h]; exact key_infix_errEmpty ev
    · rw [h]; exact key_infix_errInvalidValue ev r

/-! ## Range, acceptance condition and round trip of `GetInt` -/

/-- C14: whenever `GetInt` returns an integer `n`, it satisfies
`-2147483648 <= n <= 2147483647`, and the conversion of the parsed value to the
native `int` does not change it: `n` is the value `ParseInt` produced, which is
the mathematical value of the resolved decimal string. -/
theorem GetInt_result_range (tg : Target) (env : Env) (ev : EnvVar) (n : Int)
    (htg : tg.valid) (h : GetInt tg env ev = Except.ok n) :
    -2147483648 ≤ n ∧ n ≤ 2147483647 ∧
      ∃ s, GetString env ev = Except.ok s ∧ isIntLiteral s = true ∧
        ParseInt s 10 32 = (n, none) ∧ n = literalValue s := by
  cases hgs : GetString env ev with
  | error e =>
    rw [GetInt_of_error tg env ev e hgs] at h
    cases h
  | ok s =>
    by_cases hacc : isIntLiteral s = true ∧
        -2147483648 ≤ literalValue s ∧ literalValue s ≤ 2147483647
    · obtain ⟨hl, hlo, hhi⟩ := hacc
      rw [GetInt_of_ok_literal tg env ev s htg hgs hl hlo hhi] at h
      have hn : literalValue s = n := Except.ok.inj h
      subst hn
      exact ⟨hlo, hhi, s, rfl, hl, ParseInt_literal s hl hlo hhi, rfl⟩
    · obtain ⟨r, hr⟩ := GetInt_of_ok_rejected tg env ev s hgs hacc
      rw [hr] at h
      cases h

theorem GetInt_result_range_witness :
    (Target.mk (fun s => s) 32).valid ∧
    GetInt (Target.mk (fun s => s) 32) (fun _ => some "-2147483648")
      (EnvVar.mk "MIN" true true "") = Except.ok (-2147483648) ∧
    (-2147483648 ≤ (-2147483648 : Int) ∧ (-2147483648 : Int) ≤ 2147483647 ∧
      ∃ s, GetString (fun _ => some "-2147483648") (EnvVar.mk "MIN" true true "") =
          Except.ok s ∧ isIntLiteral s = true ∧
        ParseInt s 10 32 = (-2147483648, none) ∧ (-2147483648 : Int) = literalValue s) :=
  ⟨Or.inl rfl, rfl,
    GetInt_result_range (Target.mk (fun s => s) 32) (fun _ => some "-2147483648")
      (EnvVar.mk "MIN" true true "") (-2147483648) (Or.inl rfl) rfl⟩

/-- C15: exact acceptance condition of `GetInt`. It returns a value if and only if
`GetString` succeeds with a string made of at most one leading `+` or `-`
followed by one or more ASCII digits (nothing else) whose signed decimal value
lies in `[-2^31, 2^31-1]`; the returned integer is that value; in every other
case where `GetString` succeeds, `GetInt` fails with `InvalidValue`. -/
theorem GetInt_acceptance (tg : Target) (env : Env) (ev : EnvVar) (htg : tg.valid) :
    ((∃ n, GetInt tg env ev = Except.ok n) ↔
      ∃ s, GetString env ev = Except.ok s ∧ isIntLiteral s = true ∧
        -2147483648 ≤ literalValue s ∧ literalValue s ≤ 2147483647) ∧
    (∀ s, GetString env ev = Except.ok s → isIntLiteral s = true →
      -2147483648 ≤ literalValue s → literalValue s ≤ 2147483647 →
      GetInt tg env ev = Except.ok (literalValue s)) ∧
    (∀ s, GetString env ev = Except.ok s →
      ¬ (isIntLiteral s = true ∧
        -2147483648 ≤ literalValue s ∧ literalValue s ≤ 2147483647) →
      ∃ r, GetInt tg env ev = Except.error (errInvalidValue ev r)) := by
  refine ⟨⟨?_, ?_⟩, ?_, ?_⟩
  · rintro ⟨n, hn⟩
    cases hgs : GetString env ev with
    | error e =>
      rw [GetInt_of_error tg env ev e hgs] at hn
      cases hn
    | ok s =>
      by_cases hacc : isIntLiteral s = true ∧
          -2147483648 ≤ literalValue s ∧ literalValue s ≤ 2147483647
      · exact ⟨s, rfl, hacc⟩
      · obtain ⟨r, hr⟩ := GetInt_of_ok_rejected tg env ev s hgs hacc
        rw [hr] at hn
        cases hn
  · rintro ⟨s, hgs, hl, hlo, hhi⟩
    exact ⟨_, GetInt_of_ok_literal tg env ev s htg hgs hl hlo hhi⟩
  · intro s hgs hl hlo hhi
    exact GetInt_of_ok_literal tg env ev s htg hgs hl hlo hhi
  · intro s hgs hacc
    exact GetInt_of_ok_rejected tg env ev s hgs hacc

theorem GetInt_acceptance_witness :
    (Target.mk (fun s => s) 64).valid ∧
    ((∃ n, GetInt (Target.mk (fun s => s) 64) (fun _ => some "+30")
        (EnvVar.mk "TIMEOUT" false false "") = Except.ok n) ↔
      ∃ s, GetString (fun _ => some "+30") (EnvVar.mk "TIMEOUT" false false "") =
          Except.ok s ∧ isIntLiteral s = true ∧
        -2147483648 ≤ literalValue s ∧ literalValue s ≤ 2147483647) ∧
    (∀ s, GetString (fun _ => some "+30") (EnvVar.mk "TIMEOUT" false false "") =
        Except.ok s → isIntLiteral s = true →
      -2147483648 ≤ literalValue s → literalValue s ≤ 2147483647 →
      GetInt (Target.mk (fun s => s) 64) (fun _ => some "+30")
        (EnvVar.mk "TIMEOUT" false false "") = Except.ok (literalValue s)) ∧
    (∀ s, GetString (fun _ => some "+30") (EnvVar.mk "TIMEOUT" false false "") =
        Except.ok s →
      ¬ (isIntLiteral s = true ∧
        -2147483648 ≤ literalValue s ∧ literalValue s ≤ 2147483647) →
      ∃ r, GetInt (Target.mk (fun s => s) 64) (fun _ => some "+30")
        (EnvVar.mk "TIMEOUT" false false "") =
          Except.error (errInvalidValue (EnvVar.mk "TIMEOUT" false false "") r)) :=
  ⟨Or.inr rfl,
    GetInt_acceptance (Target.mk (fun s => s) 64) (fun _ => some "+30")
      (EnvVar.mk "TIMEOUT" false false "") (Or.inr rfl)⟩

/-- C16: round trip through the decimal rendering. When `Key` is present with the
canonical base-10 rendering of an integer `n`, `GetInt` returns `n` if
`-2^31 <= n <= 2^31-1`, and fails with the `InvalidValue` error (out of range)
for every `n` outside that range, for every accessor. -/
theorem GetInt_decimalRendering (tg : Target) (env : Env) (ev : EnvVar) (n : Int)
    (htg : tg.valid) (hp : env ev.Key = some (decimalRendering n)) :
    GetInt tg env ev =
      if -2147483648 ≤ n ∧ n ≤ 2147483647 then Except.ok n
      else Except.error
        (errInvalidValue ev ((rangeError "ParseInt" (decimalRendering n)).Error tg.quote)) := by
  obtain ⟨hl, hv⟩ := decimalRendering_literal n
  have hne := isIntLiteral_ne_empty (decimalRendering n) hl
  have hgs := GetString_present_nonempty env ev (decimalRendering n) hp hne
  by_cases hin : -2147483648 ≤ n ∧ n ≤ 2147483647
  · rw [if_pos hin]
    have h := GetInt_of_ok_literal tg env ev (decimalRendering n) htg hgs hl
      (by rw [hv]; exact hin.1) (by rw [hv]; exact hin.2)
    rw [hv] at h
    exact h
  · rw [if_neg hin]
    exact GetInt_of_parse_error tg env ev (decimalRendering n) _ hgs hne
      (ParseInt_literal_out_of_range (decimalRendering n) hl (by rw [hv]; exact hin))

theorem GetInt_decimalRendering_witness :
    (Target.mk (fun s => s) 64).valid ∧
    decimalRendering (-2147483648) = "-2147483648" ∧
    (fun _ => some (decimalRendering (-2147483648)) : Env) (EnvVar.mk "N" true false "").Key =
      some (decimalRendering (-2147483648)) ∧
    GetInt (Target.mk (fun s => s) 64) (fun _ => some (decimalRendering (-2147483648)))
        (EnvVar.mk "N" true false "") =
      if -2147483648 ≤ (-2147483648 : Int) ∧ (-2147483648 : Int) ≤ 2147483647 then
        Except.ok (-2147483648)
      else Except.error
        (errInvalidValue (EnvVar.mk "N" true false "")
          ((rangeError "ParseInt" (decimalRendering (-2147483648))).Error
            (Target.mk (fun s => s) 64).quote)) :=
  ⟨Or.inr rfl, by decide, rfl,
    GetInt_decimalRendering (Target.mk (fun s => s) 64)
      (fun _ => some (decimalRendering (-2147483648))) (EnvVar.mk "N" true false "")
      (-2147483648) (Or.inr rfl) rfl⟩

end Config
